import Mathlib

/-!
Verification development for the Zoho-CRM → Airtable sync utility
(`sync_zoho_to_airtable.py`).  The Python functions relevant to the claims
are shallowly embedded as executable Lean definitions:

* `mapZohoTypeToAirtable`  — `AirtableClient.map_zoho_type_to_airtable` (lines 268–378)
* `convert_zoho_to_airtable` / `convertRecord` — module-level
  `convert_zoho_to_airtable` (lines 700–814)
* `fieldsToCreate` / `ensure_fields_exist` — `AirtableClient.ensure_fields_exist`
  (lines 463–505, pure decision part)
* `batch_create_records` — `AirtableClient.batch_create_records` (lines 578–679),
  with the destination API's `table.batch_create` as an explicit oracle parameter
* `syncModuleRecursive` / `mainSyncEvents` — the visited-set logic of
  `sync_module_recursive` (831–837, 911), `sync_module` (923–926) and the
  module loop of `main` (1006–1010)

Dynamically-typed Python values are embedded as the inductive `JVal`;
Python `float` is modelled as `ℚ` (no claim depends on binary rounding).
Python exceptions raised by record conversion are modelled with `Except PyErr`.
-/

/-- A Python/JSON runtime value as it occurs in Zoho records:
`None`, `bool`, `int`, `float` (modelled as `ℚ`), `str`, `list`, `dict`. -/
inductive JVal where
  | null
  | bool (b : Bool)
  | int (n : Int)
  | float (q : ℚ)
  | str (s : String)
  | list (xs : List JVal)
  | obj (fs : List (String × JVal))

/-- Association-list lookup, modelling Python `dict.get(key)` /
`key in dict` on a dict embedded as a `List (String × β)` (insertion order). -/
def alookup {β : Type} : List (String × β) → String → Option β
  | [], _ => none
  | (k, v) :: rest, key => if k = key then some v else alookup rest key

/-- Python `dict[key] = v`: update in place when the key exists (keeping its
position, as Python dicts do), otherwise append at the end. -/
def dinsert {β : Type} (l : List (String × β)) (k : String) (v : β) : List (String × β) :=
  if (alookup l k).isSome then l.map (fun p => if p.1 = k then (k, v) else p)
  else l ++ [(k, v)]

/-- Python `str.lower()` (ASCII case folding; the field-type names the code
compares are all ASCII). Implemented over the character list so that it
evaluates inside the kernel. -/
def lowerStr (s : String) : String := ⟨s.data.map Char.toLower⟩

/-- Python `c in s` for a single character `c`. -/
def strHasChar (s : String) (c : Char) : Bool := s.data.contains c

/-- Python `key.lstrip('$')` as used at `sync_zoho_to_airtable.py:747-751`
(the `startswith` guard makes it equivalent to dropping all leading `'$'`). -/
def stripDollar (k : String) : String := ⟨k.data.dropWhile (· = '$')⟩

/-- Python truthiness (`bool(x)`) on an embedded value; used by the
`display_value or actual_value` / `if value:` logic at lines 345–346. -/
def truthy : JVal → Bool
  | .null => false
  | .bool b => b
  | .int n => n != 0
  | .float q => q != 0
  | .str s => s ≠ ""
  | .list xs => !xs.isEmpty
  | .obj fs => !fs.isEmpty

/-- Python `value is None`. -/
def JVal.isNull : JVal → Bool
  | .null => true
  | _ => false

/-- Python `repr` of an embedded value (`str` falls back to this for every
type except `str` itself).  String escaping and the decimal rendering of
floats are abstracted (`floatRepr` below); no claim observes the exact text,
only that a single string is produced. -/
def floatRepr (q : ℚ) : String := toString q

def pyRepr : JVal → String
  | .null => "None"
  | .bool true => "True"
  | .bool false => "False"
  | .int n => toString n
  | .float q => floatRepr q
  | .str s => "'" ++ s ++ "'"
  | .list xs => "[" ++ String.intercalate ", " (xs.attach.map (fun x => pyRepr x.1)) ++ "]"
  | .obj fs => "\x7b" ++ String.intercalate ", "
      (fs.attach.map (fun p => "'" ++ p.1.1 ++ "': " ++ pyRepr p.1.2)) ++ "\x7d"
decreasing_by
  · have := List.sizeOf_lt_of_mem x.2
    simp only [JVal.list.sizeOf_spec]
    omega
  · have := List.sizeOf_lt_of_mem p.2
    have h2 : sizeOf p.1.2 < sizeOf p.1 := by
      obtain ⟨a, b⟩ := p.1
      simp only [Prod.mk.sizeOf_spec]
      omega
    simp only [JVal.obj.sizeOf_spec]
    omega

/-- Python `str(x)`: the string itself for `str`, `repr`-style text otherwise
(which is what `str` produces for `None`, booleans, numbers, lists, dicts). -/
def pyStr : JVal → String
  | .str s => s
  | v => pyRepr v

/-! ### Numeric-string parsing (`int(value)` / `float(value)`, lines 796–801)

Modelled subset of the Python built-ins: optional surrounding ASCII
whitespace, optional sign, decimal digits, for `float` also a fractional
part and an `e`/`E` exponent.  Underscore digit grouping, non-ASCII digits
and `inf`/`nan` literals are not modelled (no claim mentions them). -/

def isDigitCh (c : Char) : Bool := '0' ≤ c && c ≤ '9'

def isPySpace (c : Char) : Bool := c = ' ' || c = '\t' || c = '\n' || c = '\r'

def stripWs (cs : List Char) : List Char :=
  ((cs.dropWhile isPySpace).reverse.dropWhile isPySpace).reverse

def digitsVal (cs : List Char) : Nat := cs.foldl (fun a c => a * 10 + (c.toNat - 48)) 0

/-- Python `int(s)` on a decimal string, `none` on `ValueError`. -/
def pyInt (s : String) : Option Int :=
  let cs := stripWs s.data
  let sd : Int × List Char :=
    match cs with
    | '-' :: rest => (-1, rest)
    | '+' :: rest => (1, rest)
    | _ => (1, cs)
  if !sd.2.isEmpty && sd.2.all isDigitCh then some (sd.1 * digitsVal sd.2) else none

/-- Split a character list at the first `e`/`E` (exponent marker). -/
def splitAtExp : List Char → List Char × Option (List Char)
  | [] => ([], none)
  | c :: rest =>
    if c = 'e' || c = 'E' then ([], some rest)
    else
      let r := splitAtExp rest
      (c :: r.1, r.2)

/-- Python `float(s)` on a decimal string (value as an exact rational),
`none` on `ValueError`. -/
def pyFloat (s : String) : Option ℚ :=
  let cs := stripWs s.data
  let sd : ℚ × List Char :=
    match cs with
    | '-' :: rest => (-1, rest)
    | '+' :: rest => (1, rest)
    | _ => (1, cs)
  let me := splitAtExp sd.2
  let intDs := me.1.takeWhile isDigitCh
  let rest1 := me.1.dropWhile isDigitCh
  let fracOk : Option (List Char) :=
    match rest1 with
    | [] => some []
    | '.' :: fs => if fs.all isDigitCh then some fs else none
    | _ => none
  match fracOk with
  | none => none
  | some fracDs =>
    if intDs.isEmpty && fracDs.isEmpty then none
    else
      let mval : ℚ := (digitsVal intDs : ℚ) + (digitsVal fracDs : ℚ) / ((10 : ℚ) ^ fracDs.length)
      match me.2 with
      | none => some (sd.1 * mval)
      | some ecs =>
        let es : Bool × List Char :=
          match ecs with
          | '-' :: r => (true, r)
          | '+' :: r => (false, r)
          | _ => (false, ecs)
        if !es.2.isEmpty && es.2.all isDigitCh then
          let e := digitsVal es.2
          some (sd.1 * (if es.1 then mval / (10 : ℚ) ^ e else mval * (10 : ℚ) ^ e))
        else none

/-! ### The Type Mapper (`map_zoho_type_to_airtable`, lines 268–378) -/

/-- A Zoho field descriptor as read by the code: `zoho_field.get('data_type',
'text')` and `'pick_list_values' in zoho_field`; `api_name` is
`zoho_field.get('api_name', '')` as read by `sync_module_recursive` line 865. -/
structure ZohoField where
  api_name : String
  data_type : Option String
  pick_list_values : Option (List JVal)

/-- The Airtable field config dict built by the mapper: a `'type'` entry
(always a string in the code) plus an optional `'options'` dict. -/
structure FieldConfig where
  type : String
  options : Option JVal

/-- The `type_mapping` dict literal, lines 273–293, in source order. -/
def typeMapping : List (String × String) :=
  [("text", "singleLineText"),
   ("textarea", "multilineText"),
   ("email", "email"),
   ("phone", "phoneNumber"),
   ("website", "url"),
   ("picklist", "singleSelect"),
   ("multiselectpicklist", "multipleSelects"),
   ("boolean", "singleLineText"),
   ("integer", "number"),
   ("bigint", "number"),
   ("double", "number"),
   ("currency", "currency"),
   ("date", "date"),
   ("datetime", "dateTime"),
   ("lookup", "singleLineText"),
   ("ownerlookup", "singleLineText"),
   ("userlookup", "singleLineText"),
   ("fileupload", "multilineText"),
   ("profileimage", "multilineText")]

/-- One iteration of the choice-building loop, lines 343–349 (the identical
loop appears again at 364–370 for `multipleSelects`): a dict entry yields
`display_value or actual_value` if truthy, a bare string yields itself,
anything else is skipped. -/
def choiceOfItem : JVal → Option JVal
  | .obj fs =>
    let d := (alookup fs "display_value").getD .null
    let v := if truthy d then d else (alookup fs "actual_value").getD .null
    if truthy v then some (.obj [("name", v)]) else none
  | .str s => some (.obj [("name", .str s)])
  | _ => none

/-- The `choices` list built from `pick_list_values` (lines 338–355):
append per item in source order, then fall back to `[{'name': 'None'}]`
when empty (also when the key is absent). -/
def buildChoices (pick : Option (List JVal)) : List JVal :=
  let choices := (pick.getD []).foldl
    (fun acc item =>
      match choiceOfItem item with
      | some c => acc ++ [c]
      | none => acc) []
  if choices.isEmpty then [.obj [("name", .str "None")]] else choices

/-- The body of `map_zoho_type_to_airtable` after `zoho_type.lower()` has
been computed (`ztl`); split out so that statements can rewrite by the
lowered type.  `pick` is the field's `pick_list_values`. -/
def mapLoweredType (ztl : String) (pick : Option (List JVal)) : FieldConfig :=
  let airtable_type := (alookup typeMapping ztl).getD "singleLineText"
  if airtable_type = "currency" then
    ⟨airtable_type, some (.obj [("precision", .int 2), ("symbol", .str "$")])⟩
  else if airtable_type = "number" then
    ⟨airtable_type, some (.obj [("precision", .int (if ztl = "integer" || ztl = "bigint" then 0 else 2))])⟩
  else if airtable_type = "date" then
    ⟨airtable_type, some (.obj [("dateFormat", .obj [("name", .str "iso"), ("format", .str "YYYY-MM-DD")])])⟩
  else if airtable_type = "dateTime" then
    ⟨airtable_type, some (.obj
      [("dateFormat", .obj [("name", .str "iso"), ("format", .str "YYYY-MM-DD")]),
       ("timeFormat", .obj [("name", .str "24hour"), ("format", .str "HH:mm")]),
       ("timeZone", .str "utc")])⟩
  else if airtable_type = "singleSelect" then
    ⟨airtable_type, some (.obj [("choices", .list (buildChoices pick))])⟩
  else if airtable_type = "multipleSelects" then
    ⟨airtable_type, some (.obj [("choices", .list (buildChoices pick))])⟩
  else ⟨airtable_type, none⟩

/-- `AirtableClient.map_zoho_type_to_airtable`, lines 268–378:
`zoho_type = zoho_field.get('data_type', 'text')`, lowered, then the
type-directed config construction of `mapLoweredType`. -/
def mapZohoTypeToAirtable (zoho_field : ZohoField) : FieldConfig :=
  let zoho_type := zoho_field.data_type.getD "text"
  mapLoweredType (lowerStr zoho_type) zoho_field.pick_list_values

/-! ### The Value Converter (`convert_zoho_to_airtable`, lines 700–814)

Conversion of a record can raise: inside the list branch (lines 775–778)
`v.get('name', str(v))` raises `AttributeError` when an element is not a
dict, and `', '.join(names)` raises `TypeError` when a collected name is
not a string.  Both are modelled with `Except PyErr`. -/

/-- The Python exceptions record conversion can raise. -/
inductive PyErr where
  | attributeError (msg : String)
  | typeError (msg : String)

/-- `v.get('name', str(v))` per list element (line 777): the `'name'` entry
if the key is present (whatever its value, `None` included), the generic
string form if absent, `AttributeError` if the element is not a dict. -/
def nameOrStr : JVal → Except PyErr JVal
  | .obj fs => .ok ((alookup fs "name").getD (.str (pyStr (.obj fs))))
  | _ => .error (.attributeError "object has no attribute get")

/-- One item of `', '.join(...)`: must be a `str`, else `TypeError`. -/
def strOfJ : JVal → Except PyErr String
  | .str s => .ok s
  | _ => .error (.typeError "sequence item: expected str instance")

/-- The item-by-item string check performed by `str.join`. -/
def strListOf : List JVal → Except PyErr (List String)
  | [] => .ok []
  | v :: vs =>
    match strOfJ v with
    | .error e => .error e
    | .ok s =>
      match strListOf vs with
      | .error e => .error e
      | .ok ss => .ok (s :: ss)

/-- Python `sep.join(items)` on a list of arbitrary values. -/
def joinPy (sep : String) (items : List JVal) : Except PyErr String :=
  match strListOf items with
  | .error e => .error e
  | .ok ss => .ok (String.intercalate sep ss)

/-- Lines 781–791: a raw `int`/`float` value dispatched on the expected
Airtable type (`s` is its Python `str(...)` form). -/
def numOut (expected : String) (v : JVal) (s : String) : Except PyErr (Option JVal) :=
  if expected = "number" || expected = "currency" then .ok (some v)
  else if expected = "singleLineText" then .ok (some (.str s))
  else .ok (some v)

/-- The list comprehension `[v.get('name', str(v)) for v in value]`
(line 777): evaluated left to right, the first `AttributeError` raises. -/
def getNames : List JVal → Except PyErr (List JVal)
  | [] => .ok []
  | v :: vs =>
    match nameOrStr v with
    | .error e => .error e
    | .ok n =>
      match getNames vs with
      | .error e => .error e
      | .ok ns => .ok (n :: ns)

/-- The value-shape dispatch of lines 758–810 for a single non-null,
non-blacklisted field value; `.ok none` means the field is skipped. -/
def convertValue (expected : String) (value : JVal) : Except PyErr (Option JVal) :=
  match value with
  | .bool b => .ok (some (.str (if b then "Yes" else "No")))
  | .obj fs =>
    if (alookup fs "name").isSome then .ok (some ((alookup fs "name").getD .null))
    else if (alookup fs "id").isSome then .ok (some (.str (pyStr ((alookup fs "id").getD .null))))
    else .ok (some (.str (pyStr (.obj fs))))
  | .list [] => .ok none
  | .list (x :: xs) =>
    match x with
    | .obj _ =>
      match getNames (x :: xs) with
      | .error e => .error e
      | .ok names =>
        match joinPy ", " names with
        | .error e => .error e
        | .ok s => .ok (some (.str s))
    | _ => .ok (some (.str (String.intercalate ", " ((x :: xs).map pyStr))))
  | .int n => numOut expected (.int n) (toString n)
  | .float q => numOut expected (.float q) (floatRepr q)
  | .str s =>
    if expected = "number" || expected = "currency" then
      if strHasChar s '.' || strHasChar (lowerStr s) 'e' then
        match pyFloat s with
        | some q => .ok (some (.float q))
        | none => .ok none
      else
        match pyInt s with
        | some n => .ok (some (.int n))
        | none => .ok none
    else .ok (some (.str s))
  | .null => .ok (some (.str "None"))

/-- One iteration of the per-field loop, lines 738–810: blacklist check,
`None` skip, `$`-stripping, expected-type lookup
(`field_type_map.get(clean_key, {}).get('type', 'singleLineText')`),
then the value dispatch. -/
def convertRecordStep (blacklist : List String) (ftm : List (String × FieldConfig))
    (fields : List (String × JVal)) (kv : String × JVal) :
    Except PyErr (List (String × JVal)) :=
  if blacklist.contains kv.1 then .ok fields
  else if kv.2.isNull then .ok fields
  else
    let clean_key := stripDollar kv.1
    let expected :=
      match alookup ftm clean_key with
      | some cfg => cfg.type
      | none => "singleLineText"
    match convertValue expected kv.2 with
    | .error e => .error e
    | .ok none => .ok fields
    | .ok (some v) => .ok (dinsert fields clean_key v)

/-- The `for key, value in record.items()` loop of lines 738–810, carrying
the `fields` dict being built; the first exception aborts the loop. -/
def convertFields (blacklist : List String) (ftm : List (String × FieldConfig))
    (fields : List (String × JVal)) :
    List (String × JVal) → Except PyErr (List (String × JVal))
  | [] => .ok fields
  | kv :: rest =>
    match convertRecordStep blacklist ftm fields kv with
    | .error e => .error e
    | .ok fields2 => convertFields blacklist ftm fields2 rest

/-- Conversion of one record (the `fields` dict built at lines 732–810). -/
def convertRecord (blacklist : List String) (ftm : List (String × FieldConfig))
    (record : List (String × JVal)) : Except PyErr (List (String × JVal)) :=
  convertFields blacklist ftm [] record

/-- The `field_blacklists` literal, lines 721–728 (a set in the source;
only membership is used). -/
def field_blacklists : List (String × List String) :=
  [("Users", ["offset", "time_zone", "Microsoft", "country_locale"])]

/-- The `for record in zoho_records` loop, lines 732–812: convert each
record in order, the first exception propagating out. -/
def convertAll (blacklist : List String) (ftm : List (String × FieldConfig)) :
    List (List (String × JVal)) → Except PyErr (List (List (String × JVal)))
  | [] => .ok []
  | r :: rs =>
    match convertRecord blacklist ftm r with
    | .error e => .error e
    | .ok fr =>
      match convertAll blacklist ftm rs with
      | .error e => .error e
      | .ok frs => .ok (fr :: frs)

/-- `convert_zoho_to_airtable`, lines 700–814.  The result is the list of
converted field dicts; the `{'fields': ...}` wrapper added at line 812 is
peeled off again by `batch_create_records` at line 608 and carries no data,
so it is left implicit here. -/
def convert_zoho_to_airtable (zoho_records : List (List (String × JVal)))
    (field_type_map : List (String × FieldConfig)) (module_name : Option String) :
    Except PyErr (List (List (String × JVal))) :=
  let blacklisted :=
    match module_name with
    | some m => (alookup field_blacklists m).getD []
    | none => []
  convertAll blacklisted field_type_map zoho_records

/-- The field-type-map construction of `sync_module_recursive`,
lines 863–877: strip the `$` prefix from each `api_name` and map the type. -/
def buildFieldTypeMap (zoho_fields : List ZohoField) : List (String × FieldConfig) :=
  zoho_fields.foldl
    (fun m zf =>
      let clean := stripDollar zf.api_name
      if clean ≠ "" then dinsert m clean (mapZohoTypeToAirtable zf) else m) []

/-! ### The Schema Reconciler (`ensure_fields_exist`, lines 463–505)

The pure decision logic: which desired fields are missing from the table.
`existing` is the field-name list returned by `get_existing_fields`;
the code builds `existing_fields_lower = {f.lower(): f for f in existing}`
and skips a desired name on an exact or case-insensitive hit (lines 480–490). -/

/-- The `fields_to_create` list computed at lines 476–490. -/
def fieldsToCreate (existing : List String) (defs : List (String × FieldConfig)) :
    List (String × FieldConfig) :=
  defs.filter (fun nf =>
    !(existing.contains nf.1 || existing.any (fun f => lowerStr f = lowerStr nf.1)))

/-- `ensure_fields_exist` as a schema transformer: the names it issues
creation requests for (lines 499–502; each `create_field_if_not_exists`
call is assumed to succeed, its own re-check being subsumed by the filter). -/
def ensure_fields_exist (existing : List String) (defs : List (String × FieldConfig)) :
    List String :=
  (fieldsToCreate existing defs).map Prod.fst

/-! ### The batch loader (`batch_create_records`, lines 578–679)

The destination API call `table.batch_create(batch_data)` is an explicit
oracle `insert`; `.error` models the call raising (e.g. a closed-choice-list
violation), in which case the code prints diagnostics and continues with the
next batch (lines 641–677). -/

/-- The `field_mapping = {f.lower(): f for f in existing_fields}` dict
comprehension at line 592 (later entries overwrite earlier ones). -/
def buildFieldMapping (existing : List String) : List (String × String) :=
  existing.foldl (fun acc f => dinsert acc (lowerStr f) f) []

/-- The per-record key mapping of lines 611–620: keep a key on an exact
match, rename it on a case-insensitive match, drop it otherwise. -/
def mapRecordFields (existing : List String) (field_mapping : List (String × String))
    (record_fields : List (String × JVal)) : List (String × JVal) :=
  record_fields.foldl
    (fun mapped kv =>
      if existing.contains kv.1 then dinsert mapped kv.1 kv.2
      else
        match alookup field_mapping (lowerStr kv.1) with
        | some f => dinsert mapped f kv.2
        | none => mapped) []

/-- Slicing `records[i:i+batch_size]` for `i in range(0, len(records), 10)`
(line 602; the call site at line 908 uses the default `batch_size=10`). -/
def chunks10 (records : List α) : List (List α) := List.toChunks 10 records

/-- The `batch_data` list built at lines 605–623 for one batch: map each
record's keys, keep only records with at least one mapped field. -/
def batchDataOf (existing : List String) (field_mapping : List (String × String))
    (batch : List (List (String × JVal))) : List (List (String × JVal)) :=
  (batch.map (mapRecordFields existing field_mapping)).filter (fun r => !r.isEmpty)

/-- The batch loop of lines 602–678, carrying `created_records`: an empty
`batch_data` is not sent, an insert that raises (`.error`) contributes
nothing but the loop continues with the next batch. -/
def batchLoop (existing : List String) (field_mapping : List (String × String))
    (insert : List (List (String × JVal)) → Except String (List String))
    (created : List String) :
    List (List (List (String × JVal))) → List String
  | [] => created
  | batch :: rest =>
    let batch_data := batchDataOf existing field_mapping batch
    if batch_data.isEmpty then batchLoop existing field_mapping insert created rest
    else
      match insert batch_data with
      | .ok result => batchLoop existing field_mapping insert (created ++ result) rest
      | .error _ => batchLoop existing field_mapping insert created rest

/-- `batch_create_records` (lines 578–679), restricted to the data it
returns: the concatenated results of the successful batch inserts.
Records are the bare field dicts (see `convert_zoho_to_airtable`). -/
def batch_create_records (existing : List String)
    (insert : List (List (String × JVal)) → Except String (List String))
    (records : List (List (String × JVal))) : List String :=
  if records.isEmpty then []
  else batchLoop existing (buildFieldMapping existing) insert [] (chunks10 records)

/-- The contribution of one batch to `created_records`: `none` when nothing
was sent or the insert raised (helper for stating claim C7). -/
def batchResult (existing : List String) (field_mapping : List (String × String))
    (insert : List (List (String × JVal)) → Except String (List String))
    (batch : List (List (String × JVal))) : Option (List String) :=
  let batch_data := batchDataOf existing field_mapping batch
  if batch_data.isEmpty then none else (insert batch_data).toOption

/-- Lines 907–914 of `sync_module_recursive`: the module's return value is
`len(created)` where `created = batch_create_records(...)`. -/
def syncLoadCount (existing : List String)
    (insert : List (List (String × JVal)) → Except String (List String))
    (airtable_records : List (List (String × JVal))) : Nat :=
  (batch_create_records existing insert airtable_records).length

/-! ### The recursion guard (`sync_module_recursive` / `sync_module` / `main`)

Only the visited-set logic matters for claim C9: lines 831–837 skip a module
already in `synced_modules`, line 911 adds it after a successful sync;
`sync_module` (lines 923–926) passes a **fresh** empty set on every call, and
`main` (lines 1006–1010) calls `sync_module` once per selected module name.
A "sync event" below stands for one full fetch–convert–load pass of a module. -/

/-- One call of `sync_module_recursive`: returns the updated visited set and
the module names actually synced (the body never recurses in the current
code, so the event list is `[m]` or `[]`). -/
def syncModuleRecursive (synced_modules : List String) (module_name : String) :
    List String × List String :=
  if synced_modules.contains module_name then (synced_modules, [])
  else (synced_modules ++ [module_name], [module_name])

/-- `sync_module`, lines 923–926: a fresh `synced_modules = set()` per call. -/
def sync_module_events (module_name : String) : List String :=
  (syncModuleRecursive [] module_name).2

/-- The module loop of `main`, lines 1006–1010: the concatenated sync events
over the user's selection list. -/
def mainSyncEvents (modules_to_sync : List String) : List String :=
  (modules_to_sync.map sync_module_events).flatten

/-! ### Predicates used to state the amended claims -/

/-- Did the embedded computation finish without a Python exception? -/
def convOk {α : Type} : Except PyErr α → Bool
  | .ok _ => true
  | .error _ => false

/-- An element of a list value whose first element is a dict is handled
without raising exactly when it is itself a dict whose `'name'` entry, if
present, is a string (line 777 then joins the collected names). -/
def listElemOk : JVal → Bool
  | .obj fs =>
    match alookup fs "name" with
    | none => true
    | some (.str _) => true
    | some _ => false
  | _ => false

/-- A field value the converter processes without raising: the only raising
code path is the list branch taken when the first element is a dict. -/
def valueConvSafe : JVal → Bool
  | .list (x :: xs) =>
    match x with
    | .obj _ => (x :: xs).all listElemOk
    | _ => true
  | _ => true

/-- Is the value a destination-shaped scalar (string or number)? -/
def scalarish : JVal → Bool
  | .str _ => true
  | .int _ => true
  | .float _ => true
  | _ => false

/-- A field value whose conversion result is guaranteed scalar: the only
branch that can emit a non-scalar is the dict branch, which passes the
`'name'` entry through unchanged (line 764). -/
def valueScalarSafe : JVal → Bool
  | .obj fs =>
    match alookup fs "name" with
    | none => true
    | some nv => scalarish nv
  | _ => true

/-- The one-field record produced when the single value dispatch returns
`res` (helper for stating claim C5). -/
def singleOut (res : Option JVal) : List (String × JVal) :=
  match res with
  | none => []
  | some v => [("F", v)]

/-! ### Claim-side definitions for C2 (choice building) and C3 (type table) -/

/-- Claim side (C2): the name contributed by one choice entry, written from
the claim's words with "present" read as non-empty: prefer the display
value, fall back to the underlying value, skip entries yielding neither;
a bare string contributes itself. -/
def entryNameOf : JVal → Option String
  | .str s => some s
  | .obj fs =>
    let d := match alookup fs "display_value" with
      | some (.str x) => x
      | _ => ""
    let a := match alookup fs "actual_value" with
      | some (.str x) => x
      | _ => ""
    if d ≠ "" then some d
    else if a ≠ "" then some a
    else none
  | _ => none

/-- Claim side (C2): deduplication keeping the first occurrence (fuelled
by the list length so that it evaluates by plain reduction). -/
def dedupFirstFuel : Nat → List String → List String
  | _, [] => []
  | 0, l => l
  | fuel + 1, x :: xs => x :: dedupFirstFuel fuel (xs.filter (· ≠ x))

def dedupFirst (l : List String) : List String := dedupFirstFuel l.length l

/-- Claim side (C2), as frozen: the deduplicated choice list with the
`[{name: "None"}]` fallback. -/
def claimChoices (items : List JVal) : List JVal :=
  let cs := (dedupFirst (items.filterMap entryNameOf)).map
    (fun n => JVal.obj [("name", JVal.str n)])
  if cs.isEmpty then [JVal.obj [("name", JVal.str "None")]] else cs

/-- Claim side (C2), amended: same entry rule, in source order with
duplicates preserved. -/
def amendedChoices (items : List JVal) : List JVal :=
  let cs := (items.filterMap entryNameOf).map (fun n => JVal.obj [("name", JVal.str n)])
  if cs.isEmpty then [JVal.obj [("name", JVal.str "None")]] else cs

/-- A present `display_value`/`actual_value` entry is a string or null
(the shapes the source system delivers for choice descriptors). -/
def strOrMissing : Option JVal → Bool
  | none => true
  | some JVal.null => true
  | some (JVal.str _) => true
  | some _ => false

/-- A well-formed choice entry for the amended C2: objects carry only
string-or-null display/underlying values; other shapes are unconstrained. -/
def wfChoiceItem : JVal → Bool
  | .obj fs =>
    strOrMissing (alookup fs "display_value") && strOrMissing (alookup fs "actual_value")
  | _ => true

/-- Spec side (C3): the known-type table of §4.1, one row per known
lowercase `data_type`, with the destination type and options as the spec
lists them (choices for the two picklist rows are claim C2's concern and
are excluded from this table). -/
def specTableRows : List (String × FieldConfig) :=
  [("text", ⟨"singleLineText", none⟩),
   ("lookup", ⟨"singleLineText", none⟩),
   ("ownerlookup", ⟨"singleLineText", none⟩),
   ("userlookup", ⟨"singleLineText", none⟩),
   ("boolean", ⟨"singleLineText", none⟩),
   ("textarea", ⟨"multilineText", none⟩),
   ("fileupload", ⟨"multilineText", none⟩),
   ("profileimage", ⟨"multilineText", none⟩),
   ("email", ⟨"email", none⟩),
   ("phone", ⟨"phoneNumber", none⟩),
   ("website", ⟨"url", none⟩),
   ("integer", ⟨"number", some (.obj [("precision", .int 0)])⟩),
   ("bigint", ⟨"number", some (.obj [("precision", .int 0)])⟩),
   ("double", ⟨"number", some (.obj [("precision", .int 2)])⟩),
   ("currency", ⟨"currency", some (.obj [("precision", .int 2), ("symbol", .str "$")])⟩),
   ("date", ⟨"date", some (.obj
     [("dateFormat", .obj [("name", .str "iso"), ("format", .str "YYYY-MM-DD")])])⟩),
   ("datetime", ⟨"dateTime", some (.obj
     [("dateFormat", .obj [("name", .str "iso"), ("format", .str "YYYY-MM-DD")]),
      ("timeFormat", .obj [("name", .str "24hour"), ("format", .str "HH:mm")]),
      ("timeZone", .str "utc")])⟩)]

/-! ## Claims -/

/-- **C8.** End-to-end over Type Mapper plus Value Converter: for the
"Accounts" module with fields `Account_Name : text` and
`Annual_Revenue : currency`, the record
`{"Account_Name": "Acme", "Annual_Revenue": "1000000", "$locked_for_me": true}`
converts to exactly
`{"Account_Name": "Acme", "Annual_Revenue": 1000000, "locked_for_me": "Yes"}`. -/
theorem C8_end_to_end :
    convert_zoho_to_airtable
      [[("Account_Name", .str "Acme"), ("Annual_Revenue", .str "1000000"),
        ("$locked_for_me", .bool true)]]
      (buildFieldTypeMap
        [⟨"Account_Name", some "text", none⟩, ⟨"Annual_Revenue", some "currency", none⟩])
      (some "Accounts")
    = .ok [[("Account_Name", .str "Acme"), ("Annual_Revenue", .int 1000000),
            ("locked_for_me", .str "Yes")]] := rfl

/-- **C9, counterexample.** The visited set is created fresh on every
`sync_module` call (line 925), so a selection list that repeats a module
name syncs it once per occurrence: with the selection
`["Accounts", "Accounts"]` the module is fetched, converted and loaded
twice, refuting "each module name is synced at most once per run". -/
theorem C9_counterexample :
    (mainSyncEvents ["Accounts", "Accounts"]).count "Accounts" = 2 := by decide

/-- **C9, amended.** Within one `sync_module` call (one recursion tree with
its own visited set) a module is synced at most once and a module already in
the visited set is skipped; but the guard does not span `main`'s loop: one
run performs one full sync per occurrence of a name in the selection list
(`mainSyncEvents selections = selections`). -/
theorem C9_amended_guard :
    ∀ (selections visited : List String) (m : String),
      mainSyncEvents selections = selections ∧
      (syncModuleRecursive visited m).2.count m ≤ 1 ∧
      (visited.contains m = true → (syncModuleRecursive visited m).2 = []) := by
  intro selections visited m
  refine ⟨?_, ?_, ?_⟩
  · induction selections with
    | nil => rfl
    | cons s rest ih =>
      simp only [mainSyncEvents, List.map_cons, List.flatten_cons] at ih ⊢
      rw [ih]
      rfl
  · unfold syncModuleRecursive
    split
    · simp
    · simp
  · intro h
    simp only [List.contains, List.elem_iff] at h
    simp [syncModuleRecursive, h]

/-- **C9, witness for the amended claim:** a module already in the visited
set is skipped. -/
theorem C9_amended_guard_witness :
    (syncModuleRecursive ["Accounts"] "Accounts").2 = [] :=
  (C9_amended_guard [] ["Accounts"] "Accounts").2.2 (by decide)

/-- **C6.** The Schema Reconciler is idempotent: feeding the created names
back into the existing set, a second run with the same desired field
definitions creates zero fields; and a desired name matching an existing
field case-insensitively (desired `"Email"` when `"email"` exists)
suppresses creation. -/
theorem C6_reconcile_idempotent :
    ∀ (existing : List String) (defs : List (String × FieldConfig)) (cfg : FieldConfig),
      ensure_fields_exist (existing ++ ensure_fields_exist existing defs) defs = [] ∧
      ensure_fields_exist ["email"] [("Email", cfg)] = [] := by
  intro existing defs cfg
  constructor
  · unfold ensure_fields_exist fieldsToCreate
    rw [List.map_eq_nil_iff, List.filter_eq_nil_iff]
    intro nf hnf
    simp only [Bool.not_eq_true, Bool.not_eq_false']
    rw [Bool.or_eq_true]
    by_cases hq :
        (existing.contains nf.1
          || existing.any (fun f => lowerStr f = lowerStr nf.1)) = true
    · rw [Bool.or_eq_true] at hq
      rcases hq with h | h
      · left
        simp only [List.contains, List.elem_iff] at h ⊢
        exact List.mem_append.mpr (Or.inl h)
      · right
        rw [List.any_append, Bool.or_eq_true]
        exact Or.inl h
    · left
      have hmem : nf ∈ (List.filter
          (fun nf => !(existing.contains nf.1
            || existing.any (fun f => lowerStr f = lowerStr nf.1))) defs) :=
        List.mem_filter.mpr ⟨hnf, by
          rw [Bool.not_eq_true']
          rw [Bool.not_eq_true] at hq
          exact hq⟩
      have : nf.1 ∈ (List.filter
          (fun nf => !(existing.contains nf.1
            || existing.any (fun f => lowerStr f = lowerStr nf.1))) defs).map Prod.fst :=
        List.mem_map.mpr ⟨nf, hmem, rfl⟩
      simp only [List.contains, List.elem_iff]
      exact List.mem_append.mpr (Or.inr this)
  · rfl

/-! ### Safety lemmas for the Value Converter -/

theorem nameOrStr_ok (v : JVal) (h : listElemOk v = true) :
    ∃ s, nameOrStr v = .ok (.str s) := by
  cases v with
  | obj fs =>
    have he : nameOrStr (.obj fs)
        = .ok ((alookup fs "name").getD (.str (pyStr (.obj fs)))) := rfl
    cases hl : alookup fs "name" with
    | none => exact ⟨pyStr (.obj fs), by rw [he, hl]; rfl⟩
    | some nv =>
      cases nv with
      | str s => exact ⟨s, by rw [he, hl]; rfl⟩
      | null => simp only [listElemOk, hl] at h; exact Bool.noConfusion h
      | bool b => simp only [listElemOk, hl] at h; exact Bool.noConfusion h
      | int n => simp only [listElemOk, hl] at h; exact Bool.noConfusion h
      | float q => simp only [listElemOk, hl] at h; exact Bool.noConfusion h
      | list xs => simp only [listElemOk, hl] at h; exact Bool.noConfusion h
      | obj fs2 => simp only [listElemOk, hl] at h; exact Bool.noConfusion h
  | null => simp [listElemOk] at h
  | bool b => simp [listElemOk] at h
  | int n => simp [listElemOk] at h
  | float q => simp [listElemOk] at h
  | str s => simp [listElemOk] at h
  | list xs => simp [listElemOk] at h

theorem getNames_ok (xs : List JVal) (h : ∀ v ∈ xs, listElemOk v = true) :
    ∃ ss : List String, getNames xs = .ok (ss.map JVal.str) := by
  induction xs with
  | nil => exact ⟨[], rfl⟩
  | cons x rest ih =>
    obtain ⟨s, hs⟩ := nameOrStr_ok x (h x (by simp))
    obtain ⟨ss, hss⟩ := ih (fun v hv => h v (by simp [hv]))
    refine ⟨s :: ss, ?_⟩
    show (match nameOrStr x with
      | Except.error e => Except.error e
      | Except.ok n =>
        match getNames rest with
        | Except.error e => Except.error e
        | Except.ok ns => Except.ok (n :: ns)) = Except.ok ((s :: ss).map JVal.str)
    rw [hs, hss]
    rfl

theorem strListOf_strings (ss : List String) :
    strListOf (ss.map JVal.str) = .ok ss := by
  induction ss with
  | nil => rfl
  | cons a rest ih =>
    show (match strOfJ (JVal.str a) with
      | Except.error e => Except.error e
      | Except.ok s =>
        match strListOf (rest.map JVal.str) with
        | Except.error e => Except.error e
        | Except.ok ss2 => Except.ok (s :: ss2)) = Except.ok (a :: rest)
    rw [ih]
    rfl

theorem joinPy_ok (sep : String) (ss : List String) :
    joinPy sep (ss.map JVal.str) = .ok (String.intercalate sep ss) := by
  unfold joinPy
  rw [strListOf_strings]

theorem numOut_ok (e : String) (v : JVal) (s : String) :
    ∃ r, numOut e v s = .ok r := by
  unfold numOut
  split
  · exact ⟨_, rfl⟩
  · split
    · exact ⟨_, rfl⟩
    · exact ⟨_, rfl⟩

theorem convertValue_ok (expected : String) (v : JVal) (h : valueConvSafe v = true) :
    ∃ r, convertValue expected v = .ok r := by
  cases v with
  | bool b => exact ⟨_, rfl⟩
  | null => exact ⟨_, rfl⟩
  | int n => exact numOut_ok _ _ _
  | float q => exact numOut_ok _ _ _
  | obj fs =>
    show ∃ r, (if (alookup fs "name").isSome then
        Except.ok (some ((alookup fs "name").getD JVal.null))
      else if (alookup fs "id").isSome then
        Except.ok (some (JVal.str (pyStr ((alookup fs "id").getD JVal.null))))
      else Except.ok (some (JVal.str (pyStr (JVal.obj fs))))) = Except.ok r
    split
    · exact ⟨_, rfl⟩
    · split
      · exact ⟨_, rfl⟩
      · exact ⟨_, rfl⟩
  | str s =>
    show ∃ r, (if expected = "number" || expected = "currency" then
        if strHasChar s '.' || strHasChar (lowerStr s) 'e' then
          match pyFloat s with
          | some q => Except.ok (some (JVal.float q))
          | none => Except.ok none
        else
          match pyInt s with
          | some n => Except.ok (some (JVal.int n))
          | none => Except.ok none
      else Except.ok (some (JVal.str s))) = Except.ok r
    split
    · split
      · cases hf : pyFloat s with
        | none => exact ⟨none, rfl⟩
        | some q => exact ⟨some (JVal.float q), rfl⟩
      · cases hi : pyInt s with
        | none => exact ⟨none, rfl⟩
        | some n => exact ⟨some (JVal.int n), rfl⟩
    · exact ⟨_, rfl⟩
  | list xs =>
    cases xs with
    | nil => exact ⟨none, rfl⟩
    | cons x rest =>
      cases x with
      | obj fs =>
        simp only [valueConvSafe, List.all_eq_true] at h
        obtain ⟨ss, hss⟩ := getNames_ok _ h
        refine ⟨some (.str (String.intercalate ", " ss)), ?_⟩
        show (match getNames (JVal.obj fs :: rest) with
          | Except.error e => Except.error e
          | Except.ok names =>
            match joinPy ", " names with
            | Except.error e => Except.error e
            | Except.ok s2 => Except.ok (some (JVal.str s2))) = _
        rw [hss]
        show (match joinPy ", " (ss.map JVal.str) with
          | Except.error e => Except.error e
          | Except.ok s2 => Except.ok (some (JVal.str s2))) = _
        rw [joinPy_ok]
      | null => exact ⟨_, rfl⟩
      | bool b => exact ⟨_, rfl⟩
      | int n => exact ⟨_, rfl⟩
      | float q => exact ⟨_, rfl⟩
      | str s => exact ⟨_, rfl⟩
      | list ys => exact ⟨_, rfl⟩

theorem convertRecordStep_ok (bl : List String) (ftm : List (String × FieldConfig))
    (fields : List (String × JVal)) (kv : String × JVal)
    (h : valueConvSafe kv.2 = true) :
    ∃ out, convertRecordStep bl ftm fields kv = .ok out := by
  unfold convertRecordStep
  split
  · exact ⟨_, rfl⟩
  · split
    · exact ⟨_, rfl⟩
    · show ∃ out, (match convertValue
          (match alookup ftm (stripDollar kv.1) with
           | some cfg => cfg.type
           | none => "singleLineText") kv.2 with
        | Except.error e => Except.error e
        | Except.ok none => Except.ok fields
        | Except.ok (some v) => Except.ok (dinsert fields (stripDollar kv.1) v))
        = Except.ok out
      cases hc : convertValue
          (match alookup ftm (stripDollar kv.1) with
           | some cfg => cfg.type
           | none => "singleLineText") kv.2 with
      | error e =>
        obtain ⟨r, hr⟩ := convertValue_ok
          (match alookup ftm (stripDollar kv.1) with
           | some cfg => cfg.type
           | none => "singleLineText") kv.2 h
        rw [hc] at hr
        cases hr
      | ok r =>
        cases r with
        | none => exact ⟨fields, rfl⟩
        | some v => exact ⟨dinsert fields (stripDollar kv.1) v, rfl⟩

theorem convertFields_ok (bl : List String) (ftm : List (String × FieldConfig)) :
    ∀ (record : List (String × JVal)) (acc : List (String × JVal)),
      (∀ kv ∈ record, valueConvSafe kv.2 = true) →
      ∃ out, convertFields bl ftm acc record = .ok out := by
  intro record
  induction record with
  | nil => exact fun acc _ => ⟨acc, rfl⟩
  | cons kv rest ih =>
    intro acc h
    obtain ⟨mid, hmid⟩ := convertRecordStep_ok bl ftm acc kv (h kv (by simp))
    obtain ⟨out, hout⟩ := ih mid (fun v hv => h v (by simp [hv]))
    refine ⟨out, ?_⟩
    show (match convertRecordStep bl ftm acc kv with
      | Except.error e => Except.error e
      | Except.ok fields2 => convertFields bl ftm fields2 rest) = Except.ok out
    rw [hmid]
    exact hout

theorem convertRecord_ok (bl : List String) (ftm : List (String × FieldConfig))
    (record : List (String × JVal)) (h : ∀ kv ∈ record, valueConvSafe kv.2 = true) :
    ∃ out, convertRecord bl ftm record = .ok out :=
  convertFields_ok bl ftm record [] h

theorem convertAll_ok (bl : List String) (ftm : List (String × FieldConfig)) :
    ∀ (records : List (List (String × JVal))),
      (∀ r ∈ records, ∀ kv ∈ r, valueConvSafe kv.2 = true) →
      ∃ out, convertAll bl ftm records = .ok out := by
  intro records
  induction records with
  | nil => exact fun _ => ⟨[], rfl⟩
  | cons r rs ih =>
    intro h
    obtain ⟨fr, hfr⟩ := convertRecord_ok bl ftm r (h r (by simp))
    obtain ⟨frs, hfrs⟩ := ih (fun r2 hr2 => h r2 (by simp [hr2]))
    refine ⟨fr :: frs, ?_⟩
    show (match convertRecord bl ftm r with
      | Except.error e => Except.error e
      | Except.ok fr2 =>
        match convertAll bl ftm rs with
        | Except.error e => Except.error e
        | Except.ok frs2 => Except.ok (fr2 :: frs2)) = Except.ok (fr :: frs)
    rw [hfr, hfrs]

/-- **C1, counterexample.** The claim quantifies over records including
"lists whose elements are a mix of objects and scalars"; on such a list the
converter evaluates `v.get('name', str(v))` on the scalar element and
raises `AttributeError` (line 777), so conversion does raise and the record
is lost rather than the field being skipped. -/
theorem C1_counterexample :
    convert_zoho_to_airtable
      [[("F", .list [.obj [("name", .str "A")], .int 5])]] [] none
    = .error (.attributeError "object has no attribute get") := rfl

/-- **C1, amended.** Record conversion never raises **provided** every
list-valued field whose first element is an object contains only objects
whose `'name'` entries, when present, are strings; for every such record,
any type map, any module blacklist and any module name, both the per-record
loop and `convert_zoho_to_airtable` return a result (at worst individual
fields are skipped).  On mixed object/scalar lists, or objects inside such
lists with a non-string `'name'`, conversion raises. -/
theorem C1_amended_no_raise :
    ∀ (records : List (List (String × JVal))) (ftm : List (String × FieldConfig))
      (module_name : Option String) (bl : List String),
      (∀ r ∈ records, ∀ kv ∈ r, valueConvSafe kv.2 = true) →
      convOk (convert_zoho_to_airtable records ftm module_name) = true ∧
      (∀ r ∈ records, convOk (convertRecord bl ftm r) = true) := by
  intro records ftm module_name bl h
  constructor
  · obtain ⟨out, hout⟩ := convertAll_ok
      (match module_name with
       | some m => (alookup field_blacklists m).getD []
       | none => []) ftm records h
    unfold convert_zoho_to_airtable
    rw [hout]
    rfl
  · intro r hr
    obtain ⟨out, hout⟩ := convertRecord_ok bl ftm r (h r hr)
    rw [hout]
    rfl

/-- **C1, witness for the amended claim:** a record exercising booleans,
relationship objects (with and without names), object lists and scalar
lists converts without raising. -/
theorem C1_amended_no_raise_witness :
    convOk (convert_zoho_to_airtable
      [[("F", .list [.obj [("name", .str "A")], .obj [("id", .int 3)]]),
        ("G", .bool true), ("H", .list [.int 1, .obj [("name", .null)]]),
        ("offset", .str "x"), ("K", .null)]]
      [] (some "Users")) = true :=
  (C1_amended_no_raise _ [] (some "Users") [] (by decide)).1

/-! ### Scalar-shape lemmas for the Value Converter (claim C4) -/

theorem okSome_inj {x r : JVal}
    (h : (Except.ok (some x) : Except PyErr (Option JVal)) = .ok (some r)) : r = x := by
  injection h with h1
  injection h1 with h2
  exact h2.symm

theorem neNull_of_isNull_false {v : JVal} (h : ¬(JVal.isNull v = true)) : v ≠ JVal.null := by
  intro he
  subst he
  exact h rfl

theorem mem_dinsert {β : Type} (l : List (String × β)) (k : String) (v : β) :
    ∀ p ∈ dinsert l k v, p ∈ l ∨ p = (k, v) := by
  intro p hp
  unfold dinsert at hp
  split at hp
  · obtain ⟨q, hq, he⟩ := List.mem_map.mp hp
    by_cases hqk : q.1 = k
    · right
      rw [if_pos hqk] at he
      exact he.symm
    · left
      rw [if_neg hqk] at he
      exact he ▸ hq
  · rcases List.mem_append.mp hp with h | h
    · exact Or.inl h
    · right
      simpa using h

theorem scalarish_of_okSome_str {s : String} {r : JVal}
    (h : (Except.ok (some (JVal.str s)) : Except PyErr (Option JVal)) = .ok (some r)) :
    scalarish r = true := by
  rw [okSome_inj h]
  rfl

theorem convertValue_scalar (e : String) (v : JVal) (r : JVal)
    (hs : valueScalarSafe v = true) (hc : convertValue e v = .ok (some r)) :
    scalarish r = true := by
  cases v with
  | bool b => exact scalarish_of_okSome_str hc
  | null => exact scalarish_of_okSome_str hc
  | int n =>
    have h2 : numOut e (JVal.int n) (toString n) = Except.ok (some r) := hc
    unfold numOut at h2
    split at h2
    · rw [okSome_inj h2]; rfl
    · split at h2
      · rw [okSome_inj h2]; rfl
      · rw [okSome_inj h2]; rfl
  | float q =>
    have h2 : numOut e (JVal.float q) (floatRepr q) = Except.ok (some r) := hc
    unfold numOut at h2
    split at h2
    · rw [okSome_inj h2]; rfl
    · split at h2
      · rw [okSome_inj h2]; rfl
      · rw [okSome_inj h2]; rfl
  | obj fs =>
    have h2 : (if (alookup fs "name").isSome then
        Except.ok (some ((alookup fs "name").getD JVal.null))
      else if (alookup fs "id").isSome then
        Except.ok (some (JVal.str (pyStr ((alookup fs "id").getD JVal.null))))
      else Except.ok (some (JVal.str (pyStr (JVal.obj fs))))) = Except.ok (some r) := hc
    split at h2
    · rename_i hsome
      cases hnv : alookup fs "name" with
      | none => rw [hnv] at hsome; simp at hsome
      | some nv =>
        rw [hnv] at h2
        rw [okSome_inj h2]
        simp only [Option.getD_some]
        simp only [valueScalarSafe, hnv] at hs
        exact hs
    · split at h2
      · exact scalarish_of_okSome_str h2
      · exact scalarish_of_okSome_str h2
  | str s =>
    have h2 : (if e = "number" || e = "currency" then
        if strHasChar s '.' || strHasChar (lowerStr s) 'e' then
          match pyFloat s with
          | some q => Except.ok (some (JVal.float q))
          | none => Except.ok none
        else
          match pyInt s with
          | some n => Except.ok (some (JVal.int n))
          | none => Except.ok none
      else Except.ok (some (JVal.str s))) = Except.ok (some r) := hc
    split at h2
    · split at h2
      · split at h2
        · rw [okSome_inj h2]; rfl
        · simp at h2
      · split at h2
        · rw [okSome_inj h2]; rfl
        · simp at h2
    · exact scalarish_of_okSome_str h2
  | list xs =>
    cases xs with
    | nil =>
      have h2 : (Except.ok none : Except PyErr (Option JVal)) = .ok (some r) := hc
      simp at h2
    | cons x rest =>
      cases x with
      | obj fs =>
        have h2 : (match getNames (JVal.obj fs :: rest) with
          | Except.error e2 => Except.error e2
          | Except.ok names =>
            match joinPy ", " names with
            | Except.error e2 => Except.error e2
            | Except.ok s2 => Except.ok (some (JVal.str s2))) = .ok (some r) := hc
        split at h2
        · simp at h2
        · split at h2
          · simp at h2
          · exact scalarish_of_okSome_str h2
      | null => exact scalarish_of_okSome_str hc
      | bool b => exact scalarish_of_okSome_str hc
      | int n => exact scalarish_of_okSome_str hc
      | float q => exact scalarish_of_okSome_str hc
      | str s2 => exact scalarish_of_okSome_str hc
      | list ys => exact scalarish_of_okSome_str hc

/-- `convertRecordStep` with its local variables expanded (pure reshaping). -/
theorem convertRecordStep_eq (bl : List String) (ftm : List (String × FieldConfig))
    (fields : List (String × JVal)) (kv : String × JVal) :
    convertRecordStep bl ftm fields kv =
      (if bl.contains kv.1 then Except.ok fields
       else if kv.2.isNull then Except.ok fields
       else
         match convertValue
             (match alookup ftm (stripDollar kv.1) with
              | some cfg => cfg.type
              | none => "singleLineText") kv.2 with
         | Except.error e => Except.error e
         | Except.ok none => Except.ok fields
         | Except.ok (some v) => Except.ok (dinsert fields (stripDollar kv.1) v)) := rfl

theorem convertRecordStep_scalars (bl : List String) (ftm : List (String × FieldConfig))
    (acc : List (String × JVal)) (kv : String × JVal) (f2 : List (String × JVal))
    (hsafe : valueScalarSafe kv.2 = true)
    (hacc : ∀ p ∈ acc, scalarish p.2 = true)
    (hstep : convertRecordStep bl ftm acc kv = .ok f2) :
    ∀ p ∈ f2, scalarish p.2 = true := by
  rw [convertRecordStep_eq] at hstep
  split at hstep
  · cases hstep; exact hacc
  · split at hstep
    · cases hstep; exact hacc
    · split at hstep
      · cases hstep
      · cases hstep; exact hacc
      · rename_i v heq
        cases hstep
        intro p hp
        rcases mem_dinsert acc (stripDollar kv.1) v p hp with h | h
        · exact hacc p h
        · rw [h]
          exact convertValue_scalar _ kv.2 v hsafe heq

theorem convertRecordStep_prov (bl : List String) (ftm : List (String × FieldConfig))
    (acc : List (String × JVal)) (kv : String × JVal) (f2 : List (String × JVal))
    (hstep : convertRecordStep bl ftm acc kv = .ok f2) :
    ∀ p ∈ f2, p ∈ acc ∨ (stripDollar kv.1 = p.1 ∧ kv.2 ≠ JVal.null) := by
  rw [convertRecordStep_eq] at hstep
  split at hstep
  · cases hstep; exact fun p hp => Or.inl hp
  · split at hstep
    · cases hstep; exact fun p hp => Or.inl hp
    · rename_i hbl hnull
      split at hstep
      · cases hstep
      · cases hstep; exact fun p hp => Or.inl hp
      · rename_i v heq
        cases hstep
        intro p hp
        rcases mem_dinsert acc (stripDollar kv.1) v p hp with h | h
        · exact Or.inl h
        · right
          rw [h]
          exact ⟨rfl, neNull_of_isNull_false hnull⟩

theorem convertFields_scalars (bl : List String) (ftm : List (String × FieldConfig)) :
    ∀ (record acc out : List (String × JVal)),
      (∀ kv ∈ record, valueScalarSafe kv.2 = true) →
      (∀ p ∈ acc, scalarish p.2 = true) →
      convertFields bl ftm acc record = .ok out →
      ∀ p ∈ out, scalarish p.2 = true := by
  intro record
  induction record with
  | nil =>
    intro acc out _ hacc hc
    have h2 : (Except.ok acc : Except PyErr (List (String × JVal))) = .ok out := hc
    cases h2
    exact hacc
  | cons kv rest ih =>
    intro acc out hsafe hacc hc
    have h2 : (match convertRecordStep bl ftm acc kv with
      | Except.error e => Except.error e
      | Except.ok fields2 => convertFields bl ftm fields2 rest) = .ok out := hc
    split at h2
    · simp at h2
    · rename_i f2 heq
      exact ih f2 out (fun v hv => hsafe v (by simp [hv]))
        (convertRecordStep_scalars bl ftm acc kv f2 (hsafe kv (by simp)) hacc heq) h2

theorem convertFields_prov (bl : List String) (ftm : List (String × FieldConfig)) :
    ∀ (record acc out : List (String × JVal)),
      convertFields bl ftm acc record = .ok out →
      ∀ p ∈ out, p ∈ acc ∨ ∃ kv ∈ record, stripDollar kv.1 = p.1 ∧ kv.2 ≠ JVal.null := by
  intro record
  induction record with
  | nil =>
    intro acc out hc
    have h2 : (Except.ok acc : Except PyErr (List (String × JVal))) = .ok out := hc
    cases h2
    exact fun p hp => Or.inl hp
  | cons kv rest ih =>
    intro acc out hc
    have h2 : (match convertRecordStep bl ftm acc kv with
      | Except.error e => Except.error e
      | Except.ok fields2 => convertFields bl ftm fields2 rest) = .ok out := hc
    split at h2
    · simp at h2
    · rename_i f2 heq
      intro p hp
      rcases ih f2 out h2 p hp with h | ⟨kv0, hkv0, hh⟩
      · rcases convertRecordStep_prov bl ftm acc kv f2 heq p h with h3 | h3
        · exact Or.inl h3
        · exact Or.inr ⟨kv, by simp, h3⟩
      · exact Or.inr ⟨kv0, by simp [hkv0], hh⟩

/-- **C4, counterexample.** A relationship object whose `'name'` entry is
null has its name passed through unchanged (line 764), so the converted
record contains a null value: structured/nullable values do survive
conversion, refuting "every value is a string or a number (… no nulls)". -/
theorem C4_counterexample :
    convert_zoho_to_airtable [[("F", JVal.obj [("name", JVal.null)])]] [] none
      = .ok [[("F", JVal.null)]] ∧ scalarish JVal.null = false :=
  ⟨rfl, rfl⟩

/-- **C4, amended.** Provided every object value's `'name'` entry (when
present) is itself a string or a number, every value in a successfully
converted record is a string or a number (the dict branch passes the
`'name'` entry through unchanged, all other branches emit strings or
numbers); and — unconditionally — no key is emitted for a source value
that was null/absent: every output pair comes from a non-null source field
whose `$`-stripped name is the output key. -/
theorem C4_amended_scalars :
    ∀ (bl : List String) (ftm : List (String × FieldConfig))
      (record out : List (String × JVal)),
      (∀ kv ∈ record, valueScalarSafe kv.2 = true) →
      convertRecord bl ftm record = .ok out →
      (∀ kv ∈ out, scalarish kv.2 = true) ∧
      (∀ kv ∈ out, ∃ kv0 ∈ record, stripDollar kv0.1 = kv.1 ∧ kv0.2 ≠ JVal.null) := by
  intro bl ftm record out hsafe hc
  constructor
  · exact convertFields_scalars bl ftm record [] out hsafe (by simp) hc
  · intro kv hkv
    rcases convertFields_prov bl ftm record [] out hc kv hkv with h | ⟨kv0, hkv0, h1, h2⟩
    · simp at h
    · exact ⟨kv0, hkv0, h1, h2⟩

/-- **C4, witness for the amended claim:** a boolean field under a reserved
prefix converts to the scalar string `"Yes"`. -/
theorem C4_amended_scalars_witness :
    scalarish (JVal.str "Yes") = true :=
  (C4_amended_scalars [] [] [("$a", JVal.bool true)] [("a", JVal.str "Yes")]
    (by decide) rfl).1 ("a", JVal.str "Yes") (by simp)


/-! ### String-to-number conversion (claim C5) -/

/-- The string branch of the dispatch, lines 792–807 (pure reshaping). -/
theorem convertValue_str_eq (e : String) (s : String) :
    convertValue e (JVal.str s)
      = (if e = "number" || e = "currency" then
          if strHasChar s '.' || strHasChar (lowerStr s) 'e' then
            match pyFloat s with
            | some q => Except.ok (some (JVal.float q))
            | none => Except.ok none
          else
            match pyInt s with
            | some n => Except.ok (some (JVal.int n))
            | none => Except.ok none
        else Except.ok (some (JVal.str s))) := rfl

/-- Conversion of a one-field record `{"F": value}` under the type map
`{"F": cfg}` reduces to the single value dispatch. -/
theorem convertRecord_single_str (cfg : FieldConfig) (s : String) (res : Option JVal)
    (hcv : convertValue cfg.type (JVal.str s) = .ok res) :
    convertRecord [] [("F", cfg)] [("F", JVal.str s)] = .ok (singleOut res) := by
  show (match convertRecordStep [] [("F", cfg)] [] ("F", JVal.str s) with
    | Except.error e => Except.error e
    | Except.ok f2 => convertFields [] [("F", cfg)] f2 []) = _
  have hstep : convertRecordStep [] [("F", cfg)] [] ("F", JVal.str s)
      = .ok (singleOut res) := by
    show (match convertValue cfg.type (JVal.str s) with
      | Except.error e => Except.error e
      | Except.ok none => Except.ok ([] : List (String × JVal))
      | Except.ok (some v) => Except.ok [("F", v)]) = _
    rw [hcv]
    cases res with
    | none => rfl
    | some v => rfl
  rw [hstep]
  rfl

/-- **C5.** For a string-valued field whose expected destination type is
`number` or `currency`, the converter parses the string as a float when it
contains `'.'` or an `e`/`E`, as an integer otherwise, and emits the parsed
number; on parse failure the field is silently omitted; for every other
expected type the string is kept unchanged.  Concretely, `"42.5"` under
expected type `number` yields the number 42.5 and `"abc"` omits the field. -/
theorem C5_string_numeric_parse :
    ∀ (s : String) (cfg : FieldConfig),
      (convertRecord [] [("F", cfg)] [("F", JVal.str s)] =
        .ok (if cfg.type = "number" || cfg.type = "currency" then
            if strHasChar s '.' || strHasChar (lowerStr s) 'e' then
              match pyFloat s with
              | some q => [("F", JVal.float q)]
              | none => []
            else
              match pyInt s with
              | some n => [("F", JVal.int n)]
              | none => []
          else [("F", JVal.str s)])) ∧
      convert_zoho_to_airtable [[("F", JVal.str "42.5")]] [("F", ⟨"number", none⟩)] none
        = .ok [[("F", JVal.float (42.5 : ℚ))]] ∧
      convert_zoho_to_airtable [[("F", JVal.str "abc")]] [("F", ⟨"number", none⟩)] none
        = .ok [[]] := by
  intro s cfg
  refine ⟨?_, by with_unfolding_all rfl, rfl⟩
  by_cases h1 : (cfg.type = "number" || cfg.type = "currency") = true
  · by_cases h2 : (strHasChar s '.' || strHasChar (lowerStr s) 'e') = true
    · cases hf : pyFloat s with
      | some q =>
        rw [convertRecord_single_str cfg s (some (JVal.float q))
            (by rw [convertValue_str_eq, if_pos h1, if_pos h2, hf]),
          if_pos h1, if_pos h2]
        rfl
      | none =>
        rw [convertRecord_single_str cfg s none
            (by rw [convertValue_str_eq, if_pos h1, if_pos h2, hf]),
          if_pos h1, if_pos h2]
        rfl
    · cases hi : pyInt s with
      | some n =>
        rw [convertRecord_single_str cfg s (some (JVal.int n))
            (by rw [convertValue_str_eq, if_pos h1, if_neg h2, hi]),
          if_pos h1, if_neg h2]
        rfl
      | none =>
        rw [convertRecord_single_str cfg s none
            (by rw [convertValue_str_eq, if_pos h1, if_neg h2, hi]),
          if_pos h1, if_neg h2]
        rfl
  · rw [convertRecord_single_str cfg s (some (JVal.str s))
        (by rw [convertValue_str_eq, if_neg h1]), if_neg h1]
    rfl

/-! ### Choice building (claim C2) -/

/-- On the actual-value fallback path, the code's truthiness test agrees
with the claim's non-empty-string rule for well-formed entries. -/
theorem actual_side_eq (fs : List (String × JVal))
    (ha0 : strOrMissing (alookup fs "actual_value") = true) :
    (if truthy ((alookup fs "actual_value").getD JVal.null) then
        some (JVal.obj [("name", (alookup fs "actual_value").getD JVal.null)])
      else none)
    = Option.map (fun n => JVal.obj [("name", JVal.str n)])
        (if (match alookup fs "actual_value" with
             | some (JVal.str x) => x
             | _ => "") ≠ "" then
          some (match alookup fs "actual_value" with
                | some (JVal.str x) => x
                | _ => "")
        else none) := by
  cases ha : alookup fs "actual_value" with
  | none => simp [truthy]
  | some av =>
    cases av with
    | str x =>
      by_cases hx : x = ""
      · subst hx
        simp [truthy]
      · simp [truthy, hx]
    | null => simp [truthy]
    | bool b => simp only [strOrMissing, ha] at ha0; exact Bool.noConfusion ha0
    | int n => simp only [strOrMissing, ha] at ha0; exact Bool.noConfusion ha0
    | float q => simp only [strOrMissing, ha] at ha0; exact Bool.noConfusion ha0
    | list xs => simp only [strOrMissing, ha] at ha0; exact Bool.noConfusion ha0
    | obj fs2 => simp only [strOrMissing, ha] at ha0; exact Bool.noConfusion ha0

/-- For well-formed entries the code's choice rule coincides with the
claim's (amended) entry rule. -/
theorem choiceOfItem_eq_amended (it : JVal) (h : wfChoiceItem it = true) :
    choiceOfItem it = (entryNameOf it).map (fun n => JVal.obj [("name", JVal.str n)]) := by
  cases it with
  | str s => rfl
  | null => rfl
  | bool b => rfl
  | int n => rfl
  | float q => rfl
  | list xs => rfl
  | obj fs =>
    simp only [wfChoiceItem, Bool.and_eq_true] at h
    obtain ⟨hd0, ha0⟩ := h
    simp only [choiceOfItem, entryNameOf]
    cases hd : alookup fs "display_value" with
    | none =>
      simp only [hd, Option.getD_none]
      have : truthy JVal.null = false := rfl
      rw [this]
      simp only [Bool.false_eq_true, if_false, ne_eq, not_true_eq_false, if_false]
      exact actual_side_eq fs ha0
    | some dv =>
      cases dv with
      | null =>
        simp only [hd, Option.getD_some]
        have : truthy JVal.null = false := rfl
        rw [this]
        simp only [Bool.false_eq_true, if_false, ne_eq, not_true_eq_false, if_false]
        exact actual_side_eq fs ha0
      | str x =>
        by_cases hx : x = ""
        · subst hx
          simp only [hd, Option.getD_some]
          have : truthy (JVal.str "") = false := rfl
          rw [this]
          simp only [Bool.false_eq_true, if_false, ne_eq, not_true_eq_false, if_false]
          exact actual_side_eq fs ha0
        · simp only [hd, Option.getD_some]
          have ht : truthy (JVal.str x) = true := by
            simp [truthy, hx]
          simp [ht, hx]
      | bool b => simp only [strOrMissing, hd] at hd0; exact Bool.noConfusion hd0
      | int n => simp only [strOrMissing, hd] at hd0; exact Bool.noConfusion hd0
      | float q => simp only [strOrMissing, hd] at hd0; exact Bool.noConfusion hd0
      | list xs => simp only [strOrMissing, hd] at hd0; exact Bool.noConfusion hd0
      | obj fs2 => simp only [strOrMissing, hd] at hd0; exact Bool.noConfusion hd0

/-- The append-per-item loop of lines 343–349 is the in-order `filterMap`. -/
theorem buildChoices_fold_eq (items : List JVal) :
    ∀ acc : List JVal,
      items.foldl (fun acc item =>
        match choiceOfItem item with
        | some c => acc ++ [c]
        | none => acc) acc
      = acc ++ items.filterMap choiceOfItem := by
  induction items with
  | nil => intro acc; simp
  | cons it rest ih =>
    intro acc
    cases hci : choiceOfItem it with
    | none =>
      show List.foldl _ (match choiceOfItem it with
        | some c => acc ++ [c]
        | none => acc) rest = _
      rw [hci, ih acc, List.filterMap_cons, hci]
    | some c =>
      show List.foldl _ (match choiceOfItem it with
        | some c => acc ++ [c]
        | none => acc) rest = _
      rw [hci, ih (acc ++ [c]), List.filterMap_cons, hci]
      simp

/-- **C2, counterexample.** The code never deduplicates choices: a picklist
whose values repeat `"A"` twice produces two identical `{name: "A"}`
choices, while the claim's deduplicated list has one — so the produced
choices list is not "the deduplicated list of the descriptor's choice
values". -/
theorem C2_counterexample :
    (mapZohoTypeToAirtable ⟨"F", some "picklist", some [JVal.str "A", JVal.str "A"]⟩).options
      = some (.obj [("choices", .list
          [JVal.obj [("name", JVal.str "A")], JVal.obj [("name", JVal.str "A")]])]) ∧
    claimChoices [JVal.str "A", JVal.str "A"] = [JVal.obj [("name", JVal.str "A")]] ∧
    ([JVal.obj [("name", JVal.str "A")], JVal.obj [("name", JVal.str "A")]] : List JVal)
      ≠ [JVal.obj [("name", JVal.str "A")]] :=
  ⟨rfl, rfl, fun h => by simpa using congrArg List.length h⟩

/-- **C2, amended.** For every picklist / multiselectpicklist descriptor
whose object entries carry only string-or-null display/underlying values,
the produced choices list is the list of the descriptor's choice values in
source order **with duplicates preserved**, where each entry contributes
its display value if non-empty, otherwise its underlying value if
non-empty, a bare string contributes itself, and entries yielding neither
are skipped; if no choices result (also when the descriptor carries no
choice list at all), the list is exactly `[{name: "None"}]`. -/
theorem C2_amended_choices :
    ∀ (name s : String) (items : List JVal),
      (lowerStr s = "picklist" ∨ lowerStr s = "multiselectpicklist") →
      ((mapZohoTypeToAirtable ⟨name, some s, none⟩).options
          = some (.obj [("choices", .list [JVal.obj [("name", JVal.str "None")]])])) ∧
      (items.all wfChoiceItem = true →
        (mapZohoTypeToAirtable ⟨name, some s, some items⟩).options
          = some (.obj [("choices", .list (amendedChoices items))])) := by
  intro name s items hs
  have hbuild : ∀ pick, (mapZohoTypeToAirtable ⟨name, some s, pick⟩).options
      = some (.obj [("choices", .list (buildChoices pick))]) := by
    intro pick
    have he : mapZohoTypeToAirtable ⟨name, some s, pick⟩
        = mapLoweredType (lowerStr s) pick := rfl
    rcases hs with h | h
    · rw [he, h]
      rfl
    · rw [he, h]
      rfl
  constructor
  · rw [hbuild none]
    rfl
  · intro hwf
    rw [hbuild (some items)]
    have h1 : buildChoices (some items)
        = (if (items.filterMap choiceOfItem).isEmpty then
            [JVal.obj [("name", JVal.str "None")]]
          else items.filterMap choiceOfItem) := by
      unfold buildChoices
      rw [show (some items).getD ([] : List JVal) = items from rfl]
      rw [buildChoices_fold_eq items []]
      rfl
    have h2 : items.filterMap choiceOfItem
        = (items.filterMap entryNameOf).map (fun n => JVal.obj [("name", JVal.str n)]) := by
      rw [List.map_filterMap]
      apply List.filterMap_congr
      intro it hit
      exact choiceOfItem_eq_amended it (by
        rw [List.all_eq_true] at hwf
        exact hwf it hit)
    rw [h1, h2]
    unfold amendedChoices
    rcases hemp : items.filterMap entryNameOf with _ | ⟨n, ns⟩
    · simp
    · simp

/-- **C2, witness for the amended claim:** a descriptor mixing an object
entry with a display value and a bare-string entry. -/
theorem C2_amended_choices_witness :
    (mapZohoTypeToAirtable ⟨"F", some "Picklist", some
        [JVal.obj [("display_value", JVal.str "X")], JVal.str "Y"]⟩).options
      = some (.obj [("choices", .list (amendedChoices
          [JVal.obj [("display_value", JVal.str "X")], JVal.str "Y"]))]) :=
  ((C2_amended_choices "F" "Picklist"
      [JVal.obj [("display_value", JVal.str "X")], JVal.str "Y"]
      (Or.inl (by decide))).2 (by decide))

/-! ### The type table (claim C3) -/

theorem alookup_eq_none {β : Type} (l : List (String × β)) (k : String)
    (h : ∀ p ∈ l, p.1 ≠ k) : alookup l k = none := by
  induction l with
  | nil => rfl
  | cons p rest ih =>
    show (if p.1 = k then some p.2 else alookup rest k) = none
    rw [if_neg (h p (by simp))]
    exact ih (fun q hq => h q (by simp [hq]))

/-- **C3.** The Type Mapper is total on field descriptors: for every
`data_type` string in the known-type table (matched case-insensitively) it
returns exactly the table's destination type and options — precision 0 for
integer/bigint, precision 2 for double, currency with precision 2 and
symbol "$", ISO date/time formats — with the two picklist rows producing
the `singleSelect`/`multipleSelects` type tags (their choices are claim
C2); and for every `data_type` string not in the table it returns
`{type: singleLineText}` with no options. -/
theorem C3_type_mapper_total :
    ∀ (name s : String) (pick : Option (List JVal)),
      (lowerStr s = "picklist" →
        (mapZohoTypeToAirtable ⟨name, some s, pick⟩).type = "singleSelect") ∧
      (lowerStr s = "multiselectpicklist" →
        (mapZohoTypeToAirtable ⟨name, some s, pick⟩).type = "multipleSelects") ∧
      (lowerStr s ≠ "picklist" → lowerStr s ≠ "multiselectpicklist" →
        mapZohoTypeToAirtable ⟨name, some s, pick⟩
          = (alookup specTableRows (lowerStr s)).getD ⟨"singleLineText", none⟩) := by
  intro name s pick
  have he : mapZohoTypeToAirtable ⟨name, some s, pick⟩
      = mapLoweredType (lowerStr s) pick := rfl
  refine ⟨?_, ?_, ?_⟩
  · intro h
    rw [he, h]
    rfl
  · intro h
    rw [he, h]
    rfl
  · intro hp1 hp2
    rw [he]
    by_cases h1 : lowerStr s = "text"
    · rw [h1]; rfl
    by_cases h2 : lowerStr s = "textarea"
    · rw [h2]; rfl
    by_cases h3 : lowerStr s = "email"
    · rw [h3]; rfl
    by_cases h4 : lowerStr s = "phone"
    · rw [h4]; rfl
    by_cases h5 : lowerStr s = "website"
    · rw [h5]; rfl
    by_cases h6 : lowerStr s = "boolean"
    · rw [h6]; rfl
    by_cases h7 : lowerStr s = "integer"
    · rw [h7]; rfl
    by_cases h8 : lowerStr s = "bigint"
    · rw [h8]; rfl
    by_cases h9 : lowerStr s = "double"
    · rw [h9]; rfl
    by_cases h10 : lowerStr s = "currency"
    · rw [h10]; rfl
    by_cases h11 : lowerStr s = "date"
    · rw [h11]; rfl
    by_cases h12 : lowerStr s = "datetime"
    · rw [h12]; rfl
    by_cases h13 : lowerStr s = "lookup"
    · rw [h13]; rfl
    by_cases h14 : lowerStr s = "ownerlookup"
    · rw [h14]; rfl
    by_cases h15 : lowerStr s = "userlookup"
    · rw [h15]; rfl
    by_cases h16 : lowerStr s = "fileupload"
    · rw [h16]; rfl
    by_cases h17 : lowerStr s = "profileimage"
    · rw [h17]; rfl
    have ht : alookup typeMapping (lowerStr s) = none := by
      apply alookup_eq_none
      intro p hp
      simp only [typeMapping, List.mem_cons, List.not_mem_nil, or_false] at hp
      rcases hp with rfl|rfl|rfl|rfl|rfl|rfl|rfl|rfl|rfl|rfl|rfl|rfl|rfl|rfl|rfl|rfl|rfl|rfl|rfl
      all_goals intro heq
      all_goals simp_all
    have hrows : alookup specTableRows (lowerStr s) = none := by
      apply alookup_eq_none
      intro p hp
      simp only [specTableRows, List.mem_cons, List.not_mem_nil, or_false] at hp
      rcases hp with rfl|rfl|rfl|rfl|rfl|rfl|rfl|rfl|rfl|rfl|rfl|rfl|rfl|rfl|rfl|rfl|rfl
      all_goals intro heq
      all_goals simp_all
    rw [hrows]
    unfold mapLoweredType
    rw [ht]
    rfl

/-- **C3, witness:** the case-insensitively matched `"CURRENCY"` row. -/
theorem C3_type_mapper_total_witness :
    mapZohoTypeToAirtable ⟨"f", some "CURRENCY", none⟩
      = ⟨"currency", some (.obj [("precision", .int 2), ("symbol", .str "$")])⟩ :=
  ((C3_type_mapper_total "f" "CURRENCY" none).2.2 (by decide) (by decide)).trans rfl

/-! ### Batch loading (claims C7 and C10) -/

/-- The batch loop accumulates exactly the results of the successful,
non-empty batch inserts, in order; a failing insert contributes nothing
and does not stop the loop. -/
theorem batchLoop_eq (existing : List String) (fm : List (String × String))
    (insert : List (List (String × JVal)) → Except String (List String)) :
    ∀ (bs : List (List (List (String × JVal)))) (created : List String),
      batchLoop existing fm insert created bs
        = created ++ (bs.filterMap (batchResult existing fm insert)).flatten := by
  intro bs
  induction bs with
  | nil => intro created; simp [batchLoop]
  | cons b rest ih =>
    intro created
    show (let batch_data := batchDataOf existing fm b
      if batch_data.isEmpty then batchLoop existing fm insert created rest
      else
        match insert batch_data with
        | .ok result => batchLoop existing fm insert (created ++ result) rest
        | .error _ => batchLoop existing fm insert created rest) = _
    rw [List.filterMap_cons]
    by_cases hbd : (batchDataOf existing fm b).isEmpty = true
    · rw [if_pos hbd]
      have hbr : batchResult existing fm insert b = none := by
        unfold batchResult
        rw [if_pos hbd]
      rw [hbr, ih created]
    · rw [if_neg hbd]
      cases hi : insert (batchDataOf existing fm b) with
      | ok result =>
        have hbr : batchResult existing fm insert b = some result := by
          unfold batchResult
          rw [if_neg hbd, hi]
          rfl
        rw [hbr]
        show batchLoop existing fm insert (created ++ result) rest
          = created ++ (result :: List.filterMap (batchResult existing fm insert) rest).flatten
        rw [ih (created ++ result), List.flatten_cons, List.append_assoc]
      | error e =>
        have hbr : batchResult existing fm insert b = none := by
          unfold batchResult
          rw [if_neg hbd, hi]
          rfl
        rw [hbr, ih created]

/-- **C7.** If one batch insert raises while other batches succeed, the
loop drops only that batch and continues: in general the returned records
are exactly the concatenated results of the successful batch inserts, and
in the concrete 25-record scenario (three batches of 10/10/5) where the
middle batch raises a closed-choice-list violation, the module sync
returns 15 — the count inserted by the other two batches, not zero and
not an exception (the error is consumed by the loop). -/
theorem C7_batch_partial_failure :
    ∀ (existing : List String)
      (insert : List (List (String × JVal)) → Except String (List String))
      (records : List (List (String × JVal))),
      batch_create_records existing insert records
        = ((chunks10 records).filterMap
            (batchResult existing (buildFieldMapping existing) insert)).flatten ∧
      syncLoadCount ["A"]
        (fun bd =>
          match bd with
          | (("A", JVal.int 10) :: _) :: _ => Except.error "INVALID_MULTIPLE_CHOICE_OPTIONS"
          | _ => Except.ok (bd.map (fun _ => "rec")))
        ((List.range 25).map (fun i => [("A", JVal.int i)])) = 15 := by
  intro existing insert records
  constructor
  · unfold batch_create_records
    by_cases hr : records.isEmpty = true
    · rw [if_pos hr]
      cases records with
      | nil => rfl
      | cons r rs => simp [List.isEmpty] at hr
    · rw [if_neg hr]
      rw [batchLoop_eq]
      rfl
  · rfl

/-- `buildFieldMapping` only holds pairs `(f.lower(), f)` for existing
field names `f`. -/
theorem buildFieldMapping_mem (existing : List String) :
    ∀ p ∈ buildFieldMapping existing, ∃ f ∈ existing, p = (lowerStr f, f) := by
  suffices h : ∀ (fs : List String) (acc : List (String × String)),
      ∀ p ∈ fs.foldl (fun acc f => dinsert acc (lowerStr f) f) acc,
        p ∈ acc ∨ ∃ f ∈ fs, p = (lowerStr f, f) by
    intro p hp
    rcases h existing [] p hp with h2 | h2
    · simp at h2
    · exact h2
  intro fs
  induction fs with
  | nil => intro acc p hp; exact Or.inl hp
  | cons g rest ih =>
    intro acc p hp
    rcases ih (dinsert acc (lowerStr g) g) p hp with h2 | ⟨f, hf, he⟩
    · rcases mem_dinsert acc (lowerStr g) g p h2 with h3 | h3
      · exact Or.inl h3
      · exact Or.inr ⟨g, by simp, h3⟩
    · exact Or.inr ⟨f, by simp [hf], he⟩

theorem alookup_mem {β : Type} :
    ∀ (l : List (String × β)) (k : String) (v : β),
      alookup l k = some v → (k, v) ∈ l := by
  intro l
  induction l with
  | nil => intro k v h; cases h
  | cons p rest ih =>
    intro k v h
    obtain ⟨pk, pv⟩ := p
    have h2 : (if pk = k then some pv else alookup rest k) = some v := h
    by_cases hk : pk = k
    · rw [if_pos hk] at h2
      cases h2
      subst hk
      exact List.mem_cons_self _ _
    · rw [if_neg hk] at h2
      exact List.mem_cons_of_mem _ (ih k v h2)

/-- Every key of a mapped record is an existing destination field name. -/
theorem mapRecordFields_keys (existing : List String) (rec : List (String × JVal)) :
    ∀ p ∈ mapRecordFields existing (buildFieldMapping existing) rec, p.1 ∈ existing := by
  suffices h : ∀ (r : List (String × JVal)) (acc : List (String × JVal)),
      (∀ p ∈ acc, p.1 ∈ existing) →
      ∀ p ∈ r.foldl (fun mapped kv =>
          if existing.contains kv.1 then dinsert mapped kv.1 kv.2
          else
            match alookup (buildFieldMapping existing) (lowerStr kv.1) with
            | some f => dinsert mapped f kv.2
            | none => mapped) acc, p.1 ∈ existing by
    exact h rec [] (by simp)
  intro r
  induction r with
  | nil => intro acc hacc p hp; exact hacc p hp
  | cons kv rest ih =>
    intro acc hacc p hp
    refine ih _ ?_ p hp
    intro q hq
    have hq2 : q ∈ (if existing.contains kv.1 then dinsert acc kv.1 kv.2
        else
          match alookup (buildFieldMapping existing) (lowerStr kv.1) with
          | some f => dinsert acc f kv.2
          | none => acc) := hq
    by_cases hc : existing.contains kv.1 = true
    · rw [if_pos hc] at hq2
      rcases mem_dinsert acc kv.1 kv.2 q hq2 with h2 | h2
      · exact hacc q h2
      · rw [h2]
        simpa only [List.contains, List.elem_iff] using hc
    · rw [if_neg hc] at hq2
      cases hl : alookup (buildFieldMapping existing) (lowerStr kv.1) with
      | none =>
        rw [hl] at hq2
        exact hacc q hq2
      | some f =>
        rw [hl] at hq2
        rcases mem_dinsert acc f kv.2 q hq2 with h2 | h2
        · exact hacc q h2
        · obtain ⟨g, hg, hge⟩ := buildFieldMapping_mem existing _ (alookup_mem _ _ _ hl)
          rw [h2]
          have : f = g := congrArg Prod.snd hge
          rw [this]
          exact hg

/-- A record none of whose keys matches an existing field name (even
case-insensitively) maps to the empty record and is dropped. -/
theorem mapRecordFields_drop (existing : List String) (rec : List (String × JVal))
    (h : ∀ kv ∈ rec, ∀ f ∈ existing, lowerStr f ≠ lowerStr kv.1) :
    mapRecordFields existing (buildFieldMapping existing) rec = [] := by
  suffices hstep : ∀ (r : List (String × JVal)) (acc : List (String × JVal)),
      (∀ kv ∈ r, ∀ f ∈ existing, lowerStr f ≠ lowerStr kv.1) →
      r.foldl (fun mapped kv =>
          if existing.contains kv.1 then dinsert mapped kv.1 kv.2
          else
            match alookup (buildFieldMapping existing) (lowerStr kv.1) with
            | some f => dinsert mapped f kv.2
            | none => mapped) acc = acc by
    exact hstep rec [] h
  intro r
  induction r with
  | nil => intro acc _; rfl
  | cons kv rest ih =>
    intro acc hr
    have hc : existing.contains kv.1 = false := by
      by_contra hcc
      have hmem : kv.1 ∈ existing := by
        have := Bool.of_not_eq_false hcc
        simpa only [List.contains, List.elem_iff] using this
      exact hr kv (by simp) kv.1 hmem rfl
    have hl : alookup (buildFieldMapping existing) (lowerStr kv.1) = none := by
      apply alookup_eq_none
      intro q hq
      obtain ⟨g, hg, hge⟩ := buildFieldMapping_mem existing q hq
      rw [hge]
      exact hr kv (by simp) g hg
    show List.foldl _ (if existing.contains kv.1 then dinsert acc kv.1 kv.2
      else
        match alookup (buildFieldMapping existing) (lowerStr kv.1) with
        | some f => dinsert acc f kv.2
        | none => acc) rest = acc
    rw [hc, hl]
    exact ih acc (fun q hq => hr q (by simp [hq]))

/-- **C10 (implicit).** Before each insert, `batch_create_records` maps
every converted record's keys onto the table's existing field names,
case-insensitively: every key of a mapped record is an existing name; a
record none of whose keys matches any existing name maps to the empty
record; and a record whose mapped field set is empty is omitted from the
insert, so the inserted count can be strictly below the converted count
even when no batch raises (concretely: 2 converted records, 1 inserted). -/
theorem C10_field_mapping :
    ∀ (existing : List String) (rec : List (String × JVal)),
      (∀ p ∈ mapRecordFields existing (buildFieldMapping existing) rec, p.1 ∈ existing) ∧
      ((∀ kv ∈ rec, ∀ f ∈ existing, lowerStr f ≠ lowerStr kv.1) →
        mapRecordFields existing (buildFieldMapping existing) rec = []) ∧
      batch_create_records ["Name"] (fun bd => .ok (bd.map (fun _ => "id")))
        [[("Name", JVal.str "x")], [("Other", JVal.str "y")]] = ["id"] ∧
      (batch_create_records ["Name"] (fun bd => .ok (bd.map (fun _ => "id")))
        [[("Name", JVal.str "x")], [("Other", JVal.str "y")]]).length
        < ([[("Name", JVal.str "x")], [("Other", JVal.str "y")]]
            : List (List (String × JVal))).length :=
  fun existing rec =>
    ⟨mapRecordFields_keys existing rec,
     mapRecordFields_drop existing rec,
     rfl,
     by decide⟩

/-- **C10, witness:** a record whose only key matches no existing field
maps to the empty record. -/
theorem C10_field_mapping_witness :
    mapRecordFields ["Name"] (buildFieldMapping ["Name"]) [("zzz", JVal.int 1)] = [] :=
  (C10_field_mapping ["Name"] [("zzz", JVal.int 1)]).2.1 (by decide)
